import Mathlib

/- Verification development for the libmongocrypt context state machine
   (mongocrypt-ctx-encrypt.c, mongocrypt-ctx-decrypt.c, mongocrypt-ctx-private.h).
   Byte buffers are lists of naturals, BSON documents are association lists of
   structured values, and every fallible C function becomes a function into
   `Except String _` or a pair carrying the updated context and the C `bool`. -/

/-- Observable context states (`mongocrypt_ctx_state_t`). -/
inductive CtxState where
  | NEED_MONGO_COLLINFO
  | NEED_MONGO_MARKINGS
  | NEED_MONGO_KEYS
  | NEED_KMS
  | WAITING
  | READY
  | DONE
  | NOTHING_TO_DO
  | ERROR
  deriving DecidableEq, Repr

/-- Rank of a state in the forward order `NEED_MONGO_COLLINFO → NEED_MONGO_MARKINGS →
NEED_MONGO_KEYS → NEED_KMS → WAITING → READY → DONE`; `NOTHING_TO_DO` and `ERROR`
sit outside the chain. -/
def stateRank : CtxState → Nat
  | .NEED_MONGO_COLLINFO => 0
  | .NEED_MONGO_MARKINGS => 1
  | .NEED_MONGO_KEYS => 2
  | .NEED_KMS => 3
  | .WAITING => 4
  | .READY => 5
  | .DONE => 6
  | .NOTHING_TO_DO => 7
  | .ERROR => 8

/-- Error categories of the spec taxonomy (§7). -/
inductive ErrorCategory where
  | client_misuse
  | malformed_input
  | policy
  | key_unavailable
  | collaborator_error
  deriving DecidableEq, Repr

/-- Modelled from the spec: the status-category machinery lives outside these sources
(`mongocrypt-status.c` is not under src/); §7 of the spec assigns a category to each
error produced by the code at hand, reproduced here by message. -/
def error_category (msg : String) : ErrorCategory :=
  if msg = "cannot auto encrypt a view" then ErrorCategory.policy
  else if msg = "malformed ciphertext, too small"
      ∨ msg = "malformed ciphertext, expected blob subtype of 1 or 2"
      ∨ msg = "malformed BSON" ∨ msg = "BSON malformed"
      ∨ msg = "malformed JSONSchema" ∨ msg = "malformed encrypted bson"
      ∨ msg = "malformed marking"
      ∨ msg = "malformed marking, no \x27result\x27"
      ∨ msg = "malformed marking, \x27result\x27 must be a document" then
    ErrorCategory.malformed_input
  else if msg = "invalid ns. Must be <db>.<coll>" ∨ msg = "invalid ns"
      ∨ msg = "aws masterkey options must not be set"
      ∨ msg = "key_id must not be set for auto encryption"
      ∨ msg = "algorithm must not be set for auto encryption"
      ∨ msg = "iv must not be set for auto encryption"
      ∨ msg = "cannot double initialize" then ErrorCategory.client_misuse
  else ErrorCategory.collaborator_error

/-- Parsed unowned view of a ciphertext blob (`_mongocrypt_ciphertext_t`). -/
structure Ciphertext where
  blob_subtype : Nat
  key_id : List Nat
  original_bson_type : Nat
  data : List Nat
  deriving DecidableEq, Repr

/-- Shallow embedding of `_parse_ciphertext_unowned` (mongocrypt-ctx-decrypt.c).
Checks the 19-byte minimum, reads `blob_subtype` from byte 0 and rejects values
other than 1 and 2, then takes bytes 1..16 as the key UUID, byte 17 as
`original_bson_type`, and the rest as the ciphertext payload. -/
def parse_ciphertext_unowned (inb : List Nat) : Except String Ciphertext :=
  if inb.length < 19 then
    Except.error "malformed ciphertext, too small"
  else if inb.getD 0 0 ≠ 1 ∧ inb.getD 0 0 ≠ 2 then
    Except.error "malformed ciphertext, expected blob subtype of 1 or 2"
  else
    Except.ok { blob_subtype := inb.getD 0 0
              , key_id := (inb.drop 1).take 16
              , original_bson_type := inb.getD 17 0
              , data := inb.drop 18 }

/-- C1: the ciphertext-blob parser succeeds iff the buffer is at least 19 bytes long
and its first byte is 1 or 2; on success byte 0 is `blob_subtype`, bytes 1..16 are the
16-byte key UUID (`key_id.length = 16`), byte 17 is `original_bson_type`, and the
remaining (at least one) bytes are the payload; on failure the error is in the
malformed-input category. -/
theorem parse_ciphertext_unowned_spec (inb : List Nat) :
    ((∃ c, parse_ciphertext_unowned inb = Except.ok c) ↔
      (19 ≤ inb.length ∧ (inb.getD 0 0 = 1 ∨ inb.getD 0 0 = 2))) ∧
    (∀ c, parse_ciphertext_unowned inb = Except.ok c →
      c.blob_subtype = inb.getD 0 0 ∧
      c.key_id = (inb.drop 1).take 16 ∧ c.key_id.length = 16 ∧
      c.original_bson_type = inb.getD 17 0 ∧
      c.data = inb.drop 18 ∧ 1 ≤ c.data.length) ∧
    (∀ e, parse_ciphertext_unowned inb = Except.error e →
      error_category e = ErrorCategory.malformed_input) := by
  refine ⟨⟨?_, ?_⟩, ?_, ?_⟩
  · rintro ⟨c, hc⟩
    unfold parse_ciphertext_unowned at hc
    by_cases h1 : inb.length < 19
    · rw [if_pos h1] at hc
      exact Except.noConfusion hc
    · by_cases h2 : inb.getD 0 0 ≠ 1 ∧ inb.getD 0 0 ≠ 2
      · rw [if_neg h1, if_pos h2] at hc
        exact Except.noConfusion hc
      · refine ⟨by omega, by tauto⟩
  · rintro ⟨h1, h2⟩
    unfold parse_ciphertext_unowned
    rw [if_neg (by omega), if_neg (by tauto)]
    exact ⟨_, rfl⟩
  · intro c hc
    unfold parse_ciphertext_unowned at hc
    by_cases h1 : inb.length < 19
    · rw [if_pos h1] at hc
      exact Except.noConfusion hc
    · by_cases h2 : inb.getD 0 0 ≠ 1 ∧ inb.getD 0 0 ≠ 2
      · rw [if_neg h1, if_pos h2] at hc
        exact Except.noConfusion hc
      · rw [if_neg h1, if_neg h2] at hc
        cases hc
        refine ⟨rfl, rfl, ?_, rfl, rfl, ?_⟩
        · simp only [List.length_take, List.length_drop]
          omega
        · simp only [List.length_drop]
          omega
  · intro e he
    unfold parse_ciphertext_unowned at he
    by_cases h1 : inb.length < 19
    · rw [if_pos h1] at he
      cases he
      decide
    · by_cases h2 : inb.getD 0 0 ≠ 1 ∧ inb.getD 0 0 ≠ 2
      · rw [if_neg h1, if_pos h2] at he
        cases he
        decide
      · rw [if_neg h1, if_neg h2] at he
        exact Except.noConfusion he

/-- Witness for C1 at the concrete 19-byte blob `[1, 0×16, 2, 42]` and the
concrete 18-byte rejection. -/
theorem parse_ciphertext_unowned_spec_witness :
    (∃ c, parse_ciphertext_unowned (1 :: (List.replicate 16 0 ++ [2, 42])) = Except.ok c) ∧
    ¬∃ c, parse_ciphertext_unowned (1 :: List.replicate 17 0) = Except.ok c := by
  constructor
  · exact (parse_ciphertext_unowned_spec (1 :: (List.replicate 16 0 ++ [2, 42]))).1.mpr
      (by decide)
  · intro h
    have := (parse_ciphertext_unowned_spec (1 :: List.replicate 17 0)).1.mp h
    revert this
    decide

/-- BSON values, as much structure as the contexts inspect: strings, booleans,
binary values with a subtype and payload bytes, embedded documents (BSON arrays
are documents with numeric keys), and a catch-all for every other element type.
This models the external libbson value layer, which is not part of these sources. -/
inductive BsonValue where
  | utf8 (s : String)
  | boolv (b : Bool)
  | binary (subtype : Nat) (payload : List Nat)
  | doc (elems : List (String × BsonValue))
  | other (tag : Nat) (payload : List Nat)

/-- Top-level field lookup, the shape `bson_iter_init_find` takes on a parsed
document (libbson, external to these sources): first element with the given name. -/
def bson_find (elems : List (String × BsonValue)) (key : String) : Option BsonValue :=
  match elems with
  | [] => none
  | (n, v) :: rest => if n = key then some v else bson_find rest key

/-- Modelled from the spec: libbson's `bson_iter_as_bool` coercion (external to these
sources); a boolean field yields its value and the remaining value kinds the contexts
meet coerce to true. -/
def bson_iter_as_bool : BsonValue → Bool
  | .boolv b => b
  | _ => true

/-- Key identifiers held by the key broker: a 16-byte UUID or an alternate name. -/
inductive KeyIdent where
  | id (uuid : List Nat)
  | name (alt : List Nat)
  deriving DecidableEq, Repr

/-- Modelled from the spec: per-entry key-broker states (§4.2); the key broker lives
in mongocrypt-key-broker.c, which is not under src/. -/
inductive KbEntryStatus where
  | added
  | requested
  | kms_pending
  | decrypted
  | err
  deriving DecidableEq, Repr

/-- Modelled from the spec: one key-broker entry — identifier, status, decrypted
material once complete, and the owner context id performing the fetch. -/
structure KbEntry where
  ident : KeyIdent
  status : KbEntryStatus
  material : List Nat
  owner : Nat
  deriving DecidableEq, Repr

/-- Modelled from the spec: the key broker as the ordered list of its entries. -/
structure KeyBroker where
  entries : List KbEntry
  deriving DecidableEq, Repr

/-- Modelled from the spec: `add_id` inserts an entry for the UUID if not already
present (§4.2). -/
def key_broker_add_id (kb : KeyBroker) (uuid : List Nat) : KeyBroker :=
  if kb.entries.any (fun e => decide (e.ident = KeyIdent.id uuid)) then kb
  else { entries := kb.entries ++ [{ ident := KeyIdent.id uuid, status := KbEntryStatus.added
                                   , material := [], owner := 0 }] }

/-- Modelled from the spec: `add_name` inserts an entry for the alternate name if
not already present (§4.2). -/
def key_broker_add_name (kb : KeyBroker) (alt : List Nat) : KeyBroker :=
  if kb.entries.any (fun e => decide (e.ident = KeyIdent.name alt)) then kb
  else { entries := kb.entries ++ [{ ident := KeyIdent.name alt, status := KbEntryStatus.added
                                   , material := [], owner := 0 }] }

/-- Modelled from the spec: `decrypted_key_by_id` is a best-effort lookup returning
material only for entries that reached the `decrypted` state (§3 invariants, §4.2). -/
def key_broker_decrypted_key_by_id (kb : KeyBroker) (uuid : List Nat) : Option (List Nat) :=
  match kb.entries.find? (fun e =>
      decide (e.ident = KeyIdent.id uuid) && decide (e.status = KbEntryStatus.decrypted)) with
  | some e => some e.material
  | none => none

/-- Modelled from the spec: `next_ctx_id` names the owner of the next dependency that
is not yet decrypted, or 0 when there is none (§4.2). -/
def key_broker_next_ctx_id (kb : KeyBroker) : Nat :=
  match kb.entries.find? (fun e => !decide (e.status = KbEntryStatus.decrypted)) with
  | some e => e.owner
  | none => 0

/-- Modelled from the spec: a parsed marking names exactly one of a 16-byte
`key_id` or a `key_alt_name` (§3); the marking codec is in
mongocrypt-marking.c, which is not under src/. -/
structure Marking where
  has_alt_name : Bool
  key_alt_name : List Nat
  key_id : List Nat
  deriving DecidableEq, Repr

/-- Modelled from the spec: `_mongocrypt_marking_parse_unowned` over the payload that
follows the marking discriminator byte — a flag byte 0 followed by a 16-byte key UUID,
or a flag byte 1 followed by the alternate-name bytes; anything else is malformed.
The concrete layout is fixed here only to make the key-collection flow executable. -/
def marking_parse_unowned (p : List Nat) : Except String Marking :=
  if p.getD 0 0 = 0 then
    if p.length < 17 then Except.error "malformed marking"
    else Except.ok { has_alt_name := false, key_alt_name := [], key_id := (p.drop 1).take 16 }
  else if p.getD 0 0 = 1 then
    Except.ok { has_alt_name := true, key_alt_name := p.drop 1, key_id := [] }
  else Except.error "malformed marking"

/-- The identifier a marking contributes to the key broker. -/
def markingIdent (m : Marking) : KeyIdent :=
  if m.has_alt_name then KeyIdent.name m.key_alt_name else KeyIdent.id m.key_id

/-- The `TRAVERSE_MATCH_CIPHERTEXT` discriminator: a subtype-6 binary whose first
content byte is a ciphertext blob subtype (1 or 2); the full envelope is handed to
the callback (spec §4.1). -/
def ciphertext_match (p : List Nat) : Bool :=
  decide (p.getD 0 0 = 1) || decide (p.getD 0 0 = 2)

/-- The `TRAVERSE_MATCH_MARKING` discriminator: a subtype-6 binary whose first
content byte is the marking discriminator (0); the payload handed to the callback
excludes that byte (spec §4.1). -/
def marking_match_payload (p : List Nat) : Option (List Nat) :=
  if p.getD 0 0 = 0 then some (p.drop 1) else none

/-- Shallow embedding of `_collect_key_from_marking` (mongocrypt-ctx-encrypt.c):
parse the marking and add its alternate name or its key id to the broker. -/
def collect_key_from_marking (kb : KeyBroker) (p : List Nat) : Except String KeyBroker :=
  match marking_parse_unowned p with
  | Except.error e => Except.error e
  | Except.ok m =>
    if m.has_alt_name then Except.ok (key_broker_add_name kb m.key_alt_name)
    else Except.ok (key_broker_add_id kb m.key_id)

mutual
/-- Modelled from the spec: the subtype-6 binary payloads of a value in document
order, recursing into embedded documents (§4.1); the traversal engine is in
mongocrypt.c, which is not under src/. -/
def value_payloads : BsonValue → List (List Nat)
  | .binary st p => if st = 6 then [p] else []
  | .doc elems => elems_payloads elems
  | _ => []

/-- Modelled from the spec: the subtype-6 binary payloads of a document in order. -/
def elems_payloads : List (String × BsonValue) → List (List Nat)
  | [] => []
  | (_, v) :: rest => value_payloads v ++ elems_payloads rest
end

/-- Modelled from the spec: visit-mode traversal for `TRAVERSE_MATCH_MARKING`
(`_mongocrypt_traverse_binary_in_bson`), folding `_collect_key_from_marking` over the
matching payloads in document order and short-circuiting on the first failure. -/
def collect_keys_from_payloads (kb : KeyBroker) : List (List Nat) → Except String KeyBroker
  | [] => Except.ok kb
  | p :: rest =>
    match marking_match_payload p with
    | none => collect_keys_from_payloads kb rest
    | some q =>
      match collect_key_from_marking kb q with
      | Except.error e => Except.error e
      | Except.ok kb2 => collect_keys_from_payloads kb2 rest

/-- Modelled from the spec: `_mongocrypt_buffer_to_bson_value` (external libbson
bridge) re-interprets the plaintext bytes as a value of the recorded original BSON
element type; tag 0 is not a valid element type. -/
def buffer_to_bson_value (pt : List Nat) (tag : Nat) : Option BsonValue :=
  if tag = 0 then none else some (BsonValue.other tag pt)

/-- Shallow embedding of `_replace_ciphertext_with_plaintext`
(mongocrypt-ctx-decrypt.c). `dec` stands for the external `_mongocrypt_do_decryption`
primitive. `Except.ok none` renders the C success-without-writing-`out` path taken
when the broker lacks the key ("We allow partial decryption, so this is not an
error"). -/
def replace_ciphertext_with_plaintext (kb : KeyBroker)
    (dec : List Nat → List Nat → Option (List Nat)) (inb : List Nat) :
    Except String (Option BsonValue) :=
  match parse_ciphertext_unowned inb with
  | Except.error e => Except.error e
  | Except.ok c =>
    match key_broker_decrypted_key_by_id kb c.key_id with
    | none => Except.ok none
    | some km =>
      match dec km c.data with
      | none => Except.error "decryption failed"
      | some pt =>
        match buffer_to_bson_value pt c.original_bson_type with
        | none => Except.error "malformed encrypted bson"
        | some v => Except.ok (some v)

mutual
/-- Modelled from the spec: transform-mode traversal over one value for
`TRAVERSE_MATCH_CIPHERTEXT` (§4.1, §4.4): a matching subtype-6 binary is handed to
the callback — a replacement value substitutes it, a success without a replacement
leaves the original in place, a failure aborts — and embedded documents are rebuilt
recursively; every other value passes through unchanged. -/
def transform_value (f : List Nat → Except String (Option BsonValue)) :
    BsonValue → Except String BsonValue
  | .binary st p =>
    if st = 6 ∧ ciphertext_match p = true then
      match f p with
      | Except.error e => Except.error e
      | Except.ok none => Except.ok (BsonValue.binary st p)
      | Except.ok (some v) => Except.ok v
    else Except.ok (BsonValue.binary st p)
  | .doc elems =>
    match transform_elems f elems with
    | Except.error e => Except.error e
    | Except.ok es => Except.ok (BsonValue.doc es)
  | .utf8 s => Except.ok (BsonValue.utf8 s)
  | .boolv b => Except.ok (BsonValue.boolv b)
  | .other tag p => Except.ok (BsonValue.other tag p)

/-- Modelled from the spec: transform-mode traversal over a document, preserving
field names and order (§4.1). -/
def transform_elems (f : List Nat → Except String (Option BsonValue)) :
    List (String × BsonValue) → Except String (List (String × BsonValue))
  | [] => Except.ok []
  | (n, v) :: rest =>
    match transform_value f v with
    | Except.error e => Except.error e
    | Except.ok v2 =>
      match transform_elems f rest with
      | Except.error e => Except.error e
      | Except.ok r2 => Except.ok ((n, v2) :: r2)
end

/-- The decrypt context (`_mongocrypt_ctx_decrypt_t` plus the `mongocrypt_ctx_t`
fields the decrypt path reads): mode flag, the original document (as parsed BSON),
the unwrapped single value (explicit mode only), the key broker, and the
state/status pair of the parent context. -/
structure DecryptCtx where
  explicit : Bool
  original_doc : List (String × BsonValue)
  unwrapped_doc : List Nat
  kb : KeyBroker
  state : CtxState
  status : Option String

/-- Embedding of `_mongocrypt_ctx_fail` after a callback set the status message: record the
message and move to the ERROR state. -/
def dctx_fail (d : DecryptCtx) (msg : String) : DecryptCtx :=
  { d with state := CtxState.ERROR, status := some msg }

/-- Shallow embedding of the decrypt `_finalize` (mongocrypt-ctx-decrypt.c).
In automatic mode the whole document is rebuilt through the ciphertext-matching
transform traversal; in explicit mode `_replace_ciphertext_with_plaintext` runs on
the single unwrapped value and the result is rewrapped as `{"v": _}`. When that call
succeeds without producing a value (missing key), the C code appends the
never-written `bson_value_t value` to the output; the placeholder
`BsonValue.other 0 []` stands for that indeterminate value. Success ends in DONE. -/
def decrypt_finalize (dec : List Nat → List Nat → Option (List Nat)) (d : DecryptCtx) :
    DecryptCtx × Option (List (String × BsonValue)) :=
  if d.explicit = false then
    match transform_elems (replace_ciphertext_with_plaintext d.kb dec) d.original_doc with
    | Except.error e => (dctx_fail d e, none)
    | Except.ok out => ({ d with state := CtxState.DONE }, some out)
  else
    match replace_ciphertext_with_plaintext d.kb dec d.unwrapped_doc with
    | Except.error e => (dctx_fail d e, none)
    | Except.ok ov =>
      ({ d with state := CtxState.DONE }, some [("v", ov.getD (BsonValue.other 0 []))])

/-- The explicit-decrypt context of claim C2: a well-formed 19-byte ciphertext blob
naming the all-zero key UUID, and a key broker holding no decrypted material. -/
def dctxC2 : DecryptCtx :=
  { explicit := true
  , original_doc := []
  , unwrapped_doc := 1 :: (List.replicate 16 0 ++ [2, 42])
  , kb := { entries := [] }
  , state := CtxState.READY
  , status := none }

/-- C2 (code bug evidence): with the key unavailable from the broker, the explicit
finalize still returns success — the context ends in DONE with no error status —
because `_replace_ciphertext_with_plaintext` treats the missing key as success and
the explicit branch then appends the never-initialized value. The claim (and the
spec, §4.4/§7) requires a hard key-unavailable error here. -/
theorem explicit_decrypt_missing_key_finalizes_done :
    key_broker_decrypted_key_by_id dctxC2.kb (List.replicate 16 0) = none ∧
    replace_ciphertext_with_plaintext dctxC2.kb (fun _ _ => none) dctxC2.unwrapped_doc
      = Except.ok none ∧
    (decrypt_finalize (fun _ _ => none) dctxC2).1.state = CtxState.DONE ∧
    (decrypt_finalize (fun _ _ => none) dctxC2).1.status = none ∧
    (decrypt_finalize (fun _ _ => none) dctxC2).2
      = some [("v", BsonValue.other 0 [])] :=
  ⟨rfl, rfl, rfl, rfl, rfl⟩

/-- The decrypt callback returns plain success, with no replacement value, whenever
the blob parses but the broker has no decrypted material for its key UUID. -/
theorem replace_missing_key (kb : KeyBroker) (dec : List Nat → List Nat → Option (List Nat))
    (p : List Nat) (c : Ciphertext)
    (hp : parse_ciphertext_unowned p = Except.ok c)
    (hk : key_broker_decrypted_key_by_id kb c.key_id = none) :
    replace_ciphertext_with_plaintext kb dec p = Except.ok none := by
  simp only [replace_ciphertext_with_plaintext, hp, hk]

/-- A binary value whose blob parses to a key the broker lacks passes through the
transform unchanged. -/
theorem transform_value_missing_key (kb : KeyBroker)
    (dec : List Nat → List Nat → Option (List Nat)) (st : Nat) (p : List Nat) (c : Ciphertext)
    (hp : parse_ciphertext_unowned p = Except.ok c)
    (hk : key_broker_decrypted_key_by_id kb c.key_id = none) :
    transform_value (replace_ciphertext_with_plaintext kb dec) (BsonValue.binary st p)
      = Except.ok (BsonValue.binary st p) := by
  by_cases h : st = 6 ∧ ciphertext_match p = true
  · simp only [transform_value, if_pos h, replace_missing_key kb dec p c hp hk]
  · simp only [transform_value, if_neg h]

/-- A successful document transform keeps the length and rewrites each position by
the per-value transform, preserving the field name. -/
theorem transform_elems_pointwise (f : List Nat → Except String (Option BsonValue))
    (l out : List (String × BsonValue))
    (h : transform_elems f l = Except.ok out) :
    out.length = l.length ∧
    ∀ i, i < l.length →
      ∃ v2, transform_value f (l.getD i ("", BsonValue.other 0 [])).2 = Except.ok v2 ∧
        out.getD i ("", BsonValue.other 0 [])
          = ((l.getD i ("", BsonValue.other 0 [])).1, v2) := by
  induction l generalizing out with
  | nil =>
    simp only [transform_elems] at h
    cases h
    exact ⟨rfl, fun i hi => by simp at hi⟩
  | cons hd tl ih =>
    obtain ⟨n, v⟩ := hd
    revert h
    simp only [transform_elems]
    cases hv : transform_value f v with
    | error e => intro h; exact Except.noConfusion h
    | ok v2 =>
      cases ht : transform_elems f tl with
      | error e => intro h; exact Except.noConfusion h
      | ok r2 =>
        intro h
        cases h
        obtain ⟨hlen, hpt⟩ := ih r2 ht
        refine ⟨by simp [hlen], ?_⟩
        intro i hi
        cases i with
        | zero => exact ⟨v2, by simpa using hv, by simp⟩
        | succ j =>
          have hj : j < tl.length := by simpa using hi
          obtain ⟨w, hw1, hw2⟩ := hpt j hj
          exact ⟨w, by simpa using hw1, by simpa using hw2⟩

/-- C3: in automatic mode, a missing key never raises — the callback succeeds with
no replacement — and when the finalize traversal succeeds the context ends in DONE
with no new error status, the output document has the same length, and every value
whose ciphertext named a key the broker lacks sits unchanged at its original
position. -/
theorem auto_decrypt_partial_missing_key
    (dec : List Nat → List Nat → Option (List Nat)) (d : DecryptCtx)
    (out : List (String × BsonValue))
    (hexp : d.explicit = false)
    (h : transform_elems (replace_ciphertext_with_plaintext d.kb dec) d.original_doc
          = Except.ok out) :
    (∀ p c, parse_ciphertext_unowned p = Except.ok c →
       key_broker_decrypted_key_by_id d.kb c.key_id = none →
       replace_ciphertext_with_plaintext d.kb dec p = Except.ok none) ∧
    (decrypt_finalize dec d).1.state = CtxState.DONE ∧
    (decrypt_finalize dec d).1.status = d.status ∧
    (decrypt_finalize dec d).2 = some out ∧
    out.length = d.original_doc.length ∧
    (∀ i st n p c, i < d.original_doc.length →
       d.original_doc.getD i ("", BsonValue.other 0 []) = (n, BsonValue.binary st p) →
       parse_ciphertext_unowned p = Except.ok c →
       key_broker_decrypted_key_by_id d.kb c.key_id = none →
       out.getD i ("", BsonValue.other 0 []) = (n, BsonValue.binary st p)) := by
  have hfin : decrypt_finalize dec d = ({ d with state := CtxState.DONE }, some out) := by
    unfold decrypt_finalize
    rw [if_pos hexp, h]
  obtain ⟨hlen, hpt⟩ := transform_elems_pointwise _ _ _ h
  refine ⟨fun p c hp hk => replace_missing_key d.kb dec p c hp hk,
          by rw [hfin], by rw [hfin], by rw [hfin], hlen, ?_⟩
  intro i st n p c hi hget hp hk
  obtain ⟨v2, hv1, hv2⟩ := hpt i hi
  rw [hget] at hv1 hv2
  rw [transform_value_missing_key d.kb dec st p c hp hk] at hv1
  cases hv1
  exact hv2

/-- Witness for C3, the spec's partial-decrypt scenario: two subtype-6 values keyed
by distinct UUIDs, the broker resolving only the first; the output holds plaintext
at the first position and the original ciphertext at the second, and the context
ends in DONE. -/
theorem auto_decrypt_partial_missing_key_witness :
    (decrypt_finalize (fun km ct => some (km ++ ct))
        { explicit := false
        , original_doc := [("a", BsonValue.binary 6 (1 :: (List.replicate 16 1 ++ [2, 9]))),
                           ("b", BsonValue.binary 6 (1 :: (List.replicate 16 2 ++ [2, 9])))]
        , unwrapped_doc := []
        , kb := { entries := [{ ident := KeyIdent.id (List.replicate 16 1)
                              , status := KbEntryStatus.decrypted
                              , material := [7, 7], owner := 0 }] }
        , state := CtxState.READY
        , status := none }).1.state = CtxState.DONE ∧
    (decrypt_finalize (fun km ct => some (km ++ ct))
        { explicit := false
        , original_doc := [("a", BsonValue.binary 6 (1 :: (List.replicate 16 1 ++ [2, 9]))),
                           ("b", BsonValue.binary 6 (1 :: (List.replicate 16 2 ++ [2, 9])))]
        , unwrapped_doc := []
        , kb := { entries := [{ ident := KeyIdent.id (List.replicate 16 1)
                              , status := KbEntryStatus.decrypted
                              , material := [7, 7], owner := 0 }] }
        , state := CtxState.READY
        , status := none }).2
      = some [("a", BsonValue.other 2 ([7, 7] ++ [9])),
              ("b", BsonValue.binary 6 (1 :: (List.replicate 16 2 ++ [2, 9])))] := by
  have h := auto_decrypt_partial_missing_key (fun km ct => some (km ++ ct))
      { explicit := false
      , original_doc := [("a", BsonValue.binary 6 (1 :: (List.replicate 16 1 ++ [2, 9]))),
                         ("b", BsonValue.binary 6 (1 :: (List.replicate 16 2 ++ [2, 9])))]
      , unwrapped_doc := []
      , kb := { entries := [{ ident := KeyIdent.id (List.replicate 16 1)
                            , status := KbEntryStatus.decrypted
                            , material := [7, 7], owner := 0 }] }
      , state := CtxState.READY
      , status := none }
      [("a", BsonValue.other 2 ([7, 7] ++ [9])),
       ("b", BsonValue.binary 6 (1 :: (List.replicate 16 2 ++ [2, 9])))]
      rfl rfl
  exact ⟨h.2.1, h.2.2.2.1⟩

/-- Cache entry states (`_mongocrypt_cache_pair_state_t`). -/
inductive CachePairState where
  | pending
  | done
  deriving DecidableEq, Repr

/-- One collinfo-cache entry: its state, the owner context id (0 once published,
per the spec invariant that done entries have no owner), and the cached
listCollections reply. -/
structure CacheEntry where
  cstate : CachePairState
  owner : Nat
  value : List (String × BsonValue)

/-- The engine-wide namespace-keyed collinfo cache. -/
abbrev Cache : Type := List (String × CacheEntry)

/-- First entry under the given namespace. -/
def cache_lookup (cache : Cache) (ns : String) : Option CacheEntry :=
  match cache with
  | [] => none
  | (n, e) :: rest => if n = ns then some e else cache_lookup rest ns

/-- Replace the entry under `ns`, or append one. -/
def cache_set (cache : Cache) (ns : String) (e : CacheEntry) : Cache :=
  match cache with
  | [] => [(ns, e)]
  | (n, e0) :: rest => if n = ns then (ns, e) :: rest else (n, e0) :: cache_set rest ns e

/-- Modelled from the spec: `_mongocrypt_cache_get_or_create` (mongocrypt-cache.c is
not under src/) — return the entry's value (when done), state and owner; a missing
entry is created pending with the calling context as owner (§3, §4.3). -/
def cache_get_or_create (cache : Cache) (ns : String) (ctx_id : Nat) :
    Cache × Option (List (String × BsonValue)) × CachePairState × Nat :=
  match cache_lookup cache ns with
  | some e =>
    (cache, (if e.cstate = CachePairState.done then some e.value else none), e.cstate, e.owner)
  | none =>
    (cache_set cache ns { cstate := CachePairState.pending, owner := ctx_id, value := [] },
     none, CachePairState.pending, ctx_id)

/-- Modelled from the spec: `_mongocrypt_cache_add_copy` (mongocrypt-cache.c is not
under src/) publishes the value under the key, marking the entry done with no owner
(§4.2 deduplication rule, §8 cache-entry invariant). -/
def cache_add_copy (cache : Cache) (ns : String) (value : List (String × BsonValue))
    (_ctx_id : Nat) : Cache :=
  cache_set cache ns { cstate := CachePairState.done, owner := 0, value := value }

/-- Context options (`_mongocrypt_ctx_opts_t`); empty buffers and `none` mean unset,
algorithm 0 is `MONGOCRYPT_ENCRYPTION_ALGORITHM_NONE`. -/
structure CtxOpts where
  masterkey_aws_cmk : Option String
  masterkey_aws_region : Option String
  local_schema : Option BsonValue
  key_id : List Nat
  key_alt_name : Option (List Nat)
  iv : List Nat
  algorithm : Nat

/-- The automatic/explicit encrypt context (`_mongocrypt_ctx_encrypt_t` plus the
`mongocrypt_ctx_t` fields the encrypt path reads). The schema and marked command
buffers are `none` while empty. -/
structure EncryptCtx where
  id : Nat
  explicit : Bool
  ns : String
  waiting_for_collinfo : Bool
  collinfo_state : CachePairState
  collinfo_owner : Nat
  schema : Option BsonValue
  marked_cmd : Option (List (String × BsonValue))
  kb : KeyBroker
  opts : CtxOpts
  initialized : Bool
  cache_noblock : Bool
  state : CtxState
  status : Option String

/-- Embedding of `_mongocrypt_ctx_fail_w_msg`: set the status message and enter ERROR. -/
def ectx_fail_w_msg (e : EncryptCtx) (msg : String) : EncryptCtx :=
  { e with state := CtxState.ERROR, status := some msg }

/-- The dotted-path lookup `options.validator.$jsonSchema` that
`bson_iter_find_descendant` performs on a collinfo document. -/
def find_jsonschema (collinfo : List (String × BsonValue)) : Option BsonValue :=
  match bson_find collinfo "options" with
  | some (BsonValue.doc o) =>
    match bson_find o "validator" with
    | some (BsonValue.doc v) => bson_find v "$jsonSchema"
    | _ => none
  | _ => none

/-- Shallow embedding of `_set_schema_from_collinfo` (mongocrypt-ctx-encrypt.c):
reject a collinfo whose top-level `type` is the UTF-8 string "view"; otherwise copy
`options.validator.$jsonSchema` into the context schema when present (it must be a
document), leaving the schema untouched when absent. The modelled BSON is always
well-formed, so the `bson_iter_init` failure branch never fires. -/
def collinfo_is_view (collinfo : List (String × BsonValue)) : Bool :=
  match bson_find collinfo "type" with
  | some (BsonValue.utf8 s) => decide (s = "view")
  | _ => false

/-- Shallow embedding of `_set_schema_from_collinfo` (mongocrypt-ctx-encrypt.c),
continued: reject views, then extract the schema. -/
def set_schema_from_collinfo (ectx : EncryptCtx) (collinfo : List (String × BsonValue)) :
    EncryptCtx × Bool :=
  if collinfo_is_view collinfo then (ectx_fail_w_msg ectx "cannot auto encrypt a view", false)
  else
    match find_jsonschema collinfo with
    | none => (ectx, true)
    | some (BsonValue.doc d) => ({ ectx with schema := some (BsonValue.doc d) }, true)
    | some _ => (ectx_fail_w_msg ectx "malformed JSONSchema", false)

/-- Shallow embedding of `_mongo_feed_collinfo` (mongocrypt-ctx-encrypt.c): the reply
is first published to the engine-wide collinfo cache under the context's namespace,
and only then validated by `_set_schema_from_collinfo`. -/
def mongo_feed_collinfo (ectx : EncryptCtx) (cache : Cache)
    (reply : List (String × BsonValue)) : EncryptCtx × Cache × Bool :=
  let cache2 := cache_add_copy cache ectx.ns reply ectx.id
  match set_schema_from_collinfo ectx reply with
  | (e2, ok) => (e2, cache2, ok)

/-- Shallow embedding of `_mongo_done_collinfo` (mongocrypt-ctx-encrypt.c): an empty
schema sends the context to NOTHING_TO_DO, a non-empty one to NEED_MONGO_MARKINGS. -/
def mongo_done_collinfo (ectx : EncryptCtx) : EncryptCtx × Bool :=
  if ectx.schema.isNone then ({ ectx with state := CtxState.NOTHING_TO_DO }, true)
  else ({ ectx with state := CtxState.NEED_MONGO_MARKINGS }, true)

/-- Shallow embedding of `_try_collinfo_from_cache` (mongocrypt-ctx-encrypt.c):
reset the waiting bookkeeping, consult `cache_get_or_create`, then on a done entry
extract the schema and go to NEED_MONGO_MARKINGS (ERROR if extraction fails); on a
pending entry owned by this context go to NEED_MONGO_COLLINFO; otherwise mark
`waiting_for_collinfo` and go to WAITING. -/
def try_collinfo_from_cache (ectx : EncryptCtx) (cache : Cache) :
    EncryptCtx × Cache × Bool :=
  let e1 := { ectx with
    collinfo_owner := 0,
    collinfo_state := CachePairState.pending,
    waiting_for_collinfo := false }
  match cache_get_or_create cache e1.ns e1.id with
  | (cache2, collinfo, cstate, owner) =>
    let e2 := { e1 with collinfo_state := cstate, collinfo_owner := owner }
    if cstate = CachePairState.done then
      match set_schema_from_collinfo e2 (collinfo.getD []) with
      | (e3, false) => (e3, cache2, false)
      | (e3, true) => ({ e3 with state := CtxState.NEED_MONGO_MARKINGS }, cache2, true)
    else if owner = e2.id then
      ({ e2 with state := CtxState.NEED_MONGO_COLLINFO }, cache2, true)
    else
      ({ e2 with waiting_for_collinfo := true, state := CtxState.WAITING }, cache2, true)

/-- Modelled from the spec: `_mongocrypt_ctx_state_from_key_broker`
(mongocrypt-ctx.c is not under src/) — broker all-decrypted ⇒ READY; any entry in
error ⇒ ERROR; an owned kms-pending entry ⇒ NEED_KMS; any other owned entry ⇒
NEED_MONGO_KEYS; everything pending elsewhere ⇒ WAITING (§4.4 tie-breaks). -/
def ctx_state_from_key_broker (ectx : EncryptCtx) : EncryptCtx × Bool :=
  if ectx.kb.entries.all (fun e => decide (e.status = KbEntryStatus.decrypted)) then
    ({ ectx with state := CtxState.READY }, true)
  else if ectx.kb.entries.any (fun e => decide (e.status = KbEntryStatus.err)) then
    ({ ectx with state := CtxState.ERROR, status := some "key broker error" }, false)
  else if ectx.kb.entries.any (fun e =>
      decide (e.owner = ectx.id) && decide (e.status = KbEntryStatus.kms_pending)) then
    ({ ectx with state := CtxState.NEED_KMS }, true)
  else if ectx.kb.entries.any (fun e => decide (e.owner = ectx.id)) then
    ({ ectx with state := CtxState.NEED_MONGO_KEYS }, true)
  else ({ ectx with state := CtxState.WAITING }, true)

/-- Shallow embedding of the encrypt `_wait_done` (mongocrypt-ctx-encrypt.c): while
waiting for collinfo, re-enter `_try_collinfo_from_cache` (in blocking mode after a
`_mongocrypt_cache_wait`, modelled as succeeding — the cache code is not under
src/); otherwise re-check the key broker and recompute the state from it. -/
def wait_done_encrypt (ectx : EncryptCtx) (cache : Cache) : EncryptCtx × Cache × Bool :=
  if ectx.waiting_for_collinfo then
    try_collinfo_from_cache ectx cache
  else
    match ctx_state_from_key_broker ectx with
    | (e2, ok) => (e2, cache, ok)

/-- Shallow embedding of `_next_dependent_ctx_id` (mongocrypt-ctx-encrypt.c):
while waiting for collinfo, return the stored collinfo owner and zero it out;
otherwise delegate to the key broker. -/
def next_dependent_ctx_id (ectx : EncryptCtx) : Nat × EncryptCtx :=
  if ectx.waiting_for_collinfo then
    (ectx.collinfo_owner, { ectx with collinfo_owner := 0 })
  else (key_broker_next_ctx_id ectx.kb, ectx)

/-- The part of `_mongo_feed_markings` handling the mandatory `result` document
(mongocrypt-ctx-encrypt.c): missing `result` is a malformed-marking error, a
non-document `result` likewise; a document is stored as the marked command and
traversed for marking-matching values whose key identifiers feed the broker. -/
def mongo_feed_markings_result (ectx : EncryptCtx) (reply : List (String × BsonValue)) :
    EncryptCtx × Bool :=
  match bson_find reply "result" with
  | none => (ectx_fail_w_msg ectx "malformed marking, no \x27result\x27", false)
  | some (BsonValue.doc d) =>
    let e2 := { ectx with marked_cmd := some d }
    match collect_keys_from_payloads e2.kb (elems_payloads d) with
    | Except.error msg => (ectx_fail_w_msg e2 msg, false)
    | Except.ok kb2 => ({ e2 with kb := kb2 }, true)
  | some _ =>
    (ectx_fail_w_msg ectx "malformed marking, \x27result\x27 must be a document", false)

/-- The part of `_mongo_feed_markings` after the `schemaRequiresEncryption` check:
a false `hasEncryptedPlaceholders` is a no-op success, else the `result` handling
runs. -/
def mongo_feed_markings_tail (ectx : EncryptCtx) (reply : List (String × BsonValue)) :
    EncryptCtx × Bool :=
  match bson_find reply "hasEncryptedPlaceholders" with
  | some v =>
    if bson_iter_as_bool v = false then (ectx, true)
    else mongo_feed_markings_result ectx reply
  | none => mongo_feed_markings_result ectx reply

/-- Shallow embedding of `_mongo_feed_markings` (mongocrypt-ctx-encrypt.c): a reply
announcing `schemaRequiresEncryption` false or `hasEncryptedPlaceholders` false is a
no-op success; otherwise `result` must be present (else a malformed-marking error)
and be a document, which is stored as the marked command and traversed for
marking-matching values whose key identifiers feed the broker. The reply arrives
already parsed; the `_mongocrypt_binary_to_bson` framing failure branch belongs to
the external binary layer. -/
def mongo_feed_markings (ectx : EncryptCtx) (reply : List (String × BsonValue)) :
    EncryptCtx × Bool :=
  match bson_find reply "schemaRequiresEncryption" with
  | some v =>
    if bson_iter_as_bool v = false then (ectx, true)
    else mongo_feed_markings_tail ectx reply
  | none => mongo_feed_markings_tail ectx reply

/-- Shallow embedding of `mongocrypt_ctx_encrypt_init` (mongocrypt-ctx-encrypt.c).
`_mongocrypt_ctx_init` (mongocrypt-ctx.c, not under src/) is modelled from the spec
as rejecting a repeated init; then, in source order: the namespace must be present
and contain a "." separator, the AWS master-key options, `key_id`, `algorithm` and
`iv` must all be unset; a local schema moves straight to NEED_MONGO_MARKINGS, else
the collinfo cache is consulted. `ns_len` handling belongs to
`_mongocrypt_validate_and_copy_string`, outside these sources. -/
def mongocrypt_ctx_encrypt_init (ectx : EncryptCtx) (cache : Cache) (ns : Option String) :
    EncryptCtx × Cache × Bool :=
  if ectx.initialized then (ectx_fail_w_msg ectx "cannot double initialize", cache, false)
  else
    let e0 := { ectx with initialized := true, explicit := false }
    match ns with
    | none => (ectx_fail_w_msg e0 "invalid ns. Must be <db>.<coll>", cache, false)
    | some s =>
      if s.contains '.' = false then
        (ectx_fail_w_msg e0 "invalid ns. Must be <db>.<coll>", cache, false)
      else if e0.opts.masterkey_aws_region.isSome ∨ e0.opts.masterkey_aws_cmk.isSome then
        (ectx_fail_w_msg e0 "aws masterkey options must not be set", cache, false)
      else if e0.opts.key_id ≠ [] then
        (ectx_fail_w_msg e0 "key_id must not be set for auto encryption", cache, false)
      else if e0.opts.algorithm ≠ 0 then
        (ectx_fail_w_msg e0 "algorithm must not be set for auto encryption", cache, false)
      else if e0.opts.iv ≠ [] then
        (ectx_fail_w_msg e0 "iv must not be set for auto encryption", cache, false)
      else
        let e1 := { e0 with ns := s }
        match e1.opts.local_schema with
        | some sch =>
          ({ e1 with schema := some sch, state := CtxState.NEED_MONGO_MARKINGS }, cache, true)
        | none => try_collinfo_from_cache e1 cache

/-- A baseline automatic-encrypt context used by the concrete scenarios below. -/
def baseCtx : EncryptCtx :=
  { id := 1
  , explicit := false
  , ns := "db.coll"
  , waiting_for_collinfo := false
  , collinfo_state := CachePairState.pending
  , collinfo_owner := 0
  , schema := none
  , marked_cmd := none
  , kb := { entries := [] }
  , opts := { masterkey_aws_cmk := none, masterkey_aws_region := none, local_schema := none
            , key_id := [], key_alt_name := none, iv := [], algorithm := 0 }
  , initialized := false
  , cache_noblock := true
  , state := CtxState.NEED_MONGO_COLLINFO
  , status := none }

/-- C4 (counterexample): a schema-cache hit in state done whose collinfo carries no
`$jsonSchema` leaves the schema empty, yet `_try_collinfo_from_cache` still moves the
context to NEED_MONGO_MARKINGS — not to NOTHING_TO_DO as the claim requires. -/
theorem collinfo_cache_hit_empty_schema_counterex :
    (try_collinfo_from_cache baseCtx
        [("db.coll", { cstate := CachePairState.done, owner := 0, value := [] })]).1.schema
      = none ∧
    (try_collinfo_from_cache baseCtx
        [("db.coll", { cstate := CachePairState.done, owner := 0, value := [] })]).1.state
      = CtxState.NEED_MONGO_MARKINGS ∧
    (try_collinfo_from_cache baseCtx
        [("db.coll", { cstate := CachePairState.done, owner := 0, value := [] })]).1.state
      ≠ CtxState.NOTHING_TO_DO :=
  ⟨rfl, rfl, fun h => CtxState.noConfusion h⟩

/-- Successful schema extraction never fails, whatever context carries it: no view
`type` and a document-or-absent `$jsonSchema` give back `true`. -/
theorem set_schema_ok (a : EncryptCtx) (c : List (String × BsonValue))
    (hview : ∀ s, bson_find c "type" = some (BsonValue.utf8 s) → s ≠ "view")
    (hschema : ∀ v, find_jsonschema c = some v → ∃ d, v = BsonValue.doc d) :
    (set_schema_from_collinfo a c).2 = true := by
  unfold set_schema_from_collinfo
  have hv : collinfo_is_view c = false := by
    unfold collinfo_is_view
    cases hbf : bson_find c "type" with
    | none => rfl
    | some v =>
      cases v with
      | utf8 s => simpa using hview s hbf
      | boolv b => rfl
      | binary st p => rfl
      | doc d => rfl
      | other t p => rfl
  rw [hv]
  simp only [Bool.false_eq_true, if_false]
  cases hfj : find_jsonschema c with
  | none => rfl
  | some v =>
    obtain ⟨d, rfl⟩ := hschema v hfj
    rfl

/-- C4 (amended): a cache hit in state done whose collinfo passes schema extraction
moves the context to NEED_MONGO_MARKINGS regardless of whether the extracted schema
is empty; only the feed-reply path's `_mongo_done_collinfo` distinguishes, sending an
empty schema to NOTHING_TO_DO and a non-empty one to NEED_MONGO_MARKINGS. -/
theorem collinfo_done_transitions (ectx : EncryptCtx) (cache : Cache) (e : CacheEntry)
    (hl : cache_lookup cache ectx.ns = some e)
    (hd : e.cstate = CachePairState.done)
    (hview : ∀ s, bson_find e.value "type" = some (BsonValue.utf8 s) → s ≠ "view")
    (hschema : ∀ v, find_jsonschema e.value = some v → ∃ d, v = BsonValue.doc d) :
    (try_collinfo_from_cache ectx cache).1.state = CtxState.NEED_MONGO_MARKINGS ∧
    (∀ e2 : EncryptCtx, (mongo_done_collinfo e2).1.state =
       (if e2.schema.isNone = true then CtxState.NOTHING_TO_DO
        else CtxState.NEED_MONGO_MARKINGS)) := by
  constructor
  · unfold try_collinfo_from_cache cache_get_or_create
    simp only [hl, hd, if_pos rfl]
    set e2 : EncryptCtx :=
      { ectx with
        collinfo_owner := e.owner,
        collinfo_state := CachePairState.done,
        waiting_for_collinfo := false } with he2
    have hok := set_schema_ok e2 e.value hview hschema
    rcases hs : set_schema_from_collinfo e2 e.value with ⟨e3, ok⟩
    rw [hs] at hok
    simp only at hok
    subst hok
    simp [hs]
  · intro e2
    unfold mongo_done_collinfo
    by_cases h : e2.schema.isNone
    · rw [if_pos h, if_pos h]
    · rw [if_neg h, if_neg h]

/-- Witness for C4's amended statement: a done cache entry whose collinfo holds a
`$jsonSchema` document advances the hit to NEED_MONGO_MARKINGS, and done-collinfo on
an empty schema yields NOTHING_TO_DO. -/
theorem collinfo_done_transitions_witness :
    (try_collinfo_from_cache baseCtx
        [("db.coll", { cstate := CachePairState.done, owner := 0
                     , value := [("options", BsonValue.doc
                          [("validator", BsonValue.doc
                             [("$jsonSchema", BsonValue.doc [])])])] })]).1.state
      = CtxState.NEED_MONGO_MARKINGS ∧
    (mongo_done_collinfo baseCtx).1.state = CtxState.NOTHING_TO_DO := by
  have h := collinfo_done_transitions baseCtx
      [("db.coll", { cstate := CachePairState.done, owner := 0
                   , value := [("options", BsonValue.doc
                        [("validator", BsonValue.doc
                           [("$jsonSchema", BsonValue.doc [])])])] })]
      { cstate := CachePairState.done, owner := 0
      , value := [("options", BsonValue.doc
           [("validator", BsonValue.doc [("$jsonSchema", BsonValue.doc [])])])] }
      rfl rfl
      (fun s hs => by exact Option.noConfusion hs)
      (fun v hv => ⟨[], by injection hv with h2; exact h2.symm⟩)
  exact ⟨h.1, by rw [h.2 baseCtx]; rfl⟩

/-- A collinfo whose top-level `type` is the string "view" makes
`_set_schema_from_collinfo` fail with the policy message, whatever the context. -/
theorem set_schema_view_fails (a : EncryptCtx) (c : List (String × BsonValue))
    (h : bson_find c "type" = some (BsonValue.utf8 "view")) :
    set_schema_from_collinfo a c = (ectx_fail_w_msg a "cannot auto encrypt a view", false) := by
  unfold set_schema_from_collinfo collinfo_is_view
  rw [h]
  rfl

/-- C5: feeding a listCollections reply whose top-level `type` is the string "view"
fails: the context enters ERROR carrying the policy-category message that refuses to
auto-encrypt a view. -/
theorem feed_collinfo_rejects_view (ectx : EncryptCtx) (cache : Cache)
    (reply : List (String × BsonValue))
    (h : bson_find reply "type" = some (BsonValue.utf8 "view")) :
    (mongo_feed_collinfo ectx cache reply).2.2 = false ∧
    (mongo_feed_collinfo ectx cache reply).1.state = CtxState.ERROR ∧
    (mongo_feed_collinfo ectx cache reply).1.status = some "cannot auto encrypt a view" ∧
    error_category "cannot auto encrypt a view" = ErrorCategory.policy := by
  unfold mongo_feed_collinfo
  rw [set_schema_view_fails ectx reply h]
  exact ⟨rfl, rfl, rfl, by decide⟩

/-- Witness for C5 at the concrete reply `{type: "view"}` fed to the baseline
context over an empty cache. -/
theorem feed_collinfo_rejects_view_witness :
    (mongo_feed_collinfo baseCtx [] [("type", BsonValue.utf8 "view")]).2.2 = false ∧
    (mongo_feed_collinfo baseCtx [] [("type", BsonValue.utf8 "view")]).1.state
      = CtxState.ERROR :=
  ⟨(feed_collinfo_rejects_view baseCtx [] [("type", BsonValue.utf8 "view")] rfl).1,
   (feed_collinfo_rejects_view baseCtx [] [("type", BsonValue.utf8 "view")] rfl).2.1⟩

/-- Looking up the key just written by `cache_set` returns the new entry. -/
theorem cache_lookup_set (cache : Cache) (ns : String) (e : CacheEntry) :
    cache_lookup (cache_set cache ns e) ns = some e := by
  induction cache with
  | nil => simp [cache_set, cache_lookup]
  | cons hd tl ih =>
    obtain ⟨n, e0⟩ := hd
    by_cases hn : n = ns
    · simp [cache_set, hn, cache_lookup]
    · simp [cache_set, hn, cache_lookup, ih]

/-- C9: `_mongo_feed_collinfo` publishes the reply to the engine-wide collinfo cache
under the context's namespace before validating it, so even when validation fails —
as for a view — the context is in ERROR while the reply sits published (state done)
in the shared cache. -/
theorem feed_collinfo_caches_before_validation (ectx : EncryptCtx) (cache : Cache)
    (reply : List (String × BsonValue)) :
    cache_lookup (mongo_feed_collinfo ectx cache reply).2.1 ectx.ns
      = some { cstate := CachePairState.done, owner := 0, value := reply } ∧
    (bson_find reply "type" = some (BsonValue.utf8 "view") →
      (mongo_feed_collinfo ectx cache reply).1.state = CtxState.ERROR ∧
      (mongo_feed_collinfo ectx cache reply).2.2 = false) := by
  constructor
  · rcases hs : set_schema_from_collinfo ectx reply with ⟨e2, ok⟩
    unfold mongo_feed_collinfo
    rw [hs]
    exact cache_lookup_set cache ectx.ns _
  · intro h
    unfold mongo_feed_collinfo
    rw [set_schema_view_fails ectx reply h]
    exact ⟨rfl, rfl⟩

/-- Witness for C9: after feeding `{type: "view"}` the context is in ERROR and the
reply is still retrievable from the cache under the namespace. -/
theorem feed_collinfo_caches_before_validation_witness :
    cache_lookup (mongo_feed_collinfo baseCtx [] [("type", BsonValue.utf8 "view")]).2.1
        baseCtx.ns
      = some { cstate := CachePairState.done, owner := 0
             , value := [("type", BsonValue.utf8 "view")] } ∧
    (mongo_feed_collinfo baseCtx [] [("type", BsonValue.utf8 "view")]).1.state
      = CtxState.ERROR :=
  ⟨(feed_collinfo_caches_before_validation baseCtx [] [("type", BsonValue.utf8 "view")]).1,
   ((feed_collinfo_caches_before_validation baseCtx [] [("type", BsonValue.utf8 "view")]).2
      rfl).1⟩

/-- The broker operation `add_id` preserves every identifier already present. -/
theorem mem_ident_add_id (kb : KeyBroker) (u : List Nat) (i : KeyIdent)
    (h : i ∈ kb.entries.map KbEntry.ident) :
    i ∈ (key_broker_add_id kb u).entries.map KbEntry.ident := by
  unfold key_broker_add_id
  by_cases hp : kb.entries.any (fun e => decide (e.ident = KeyIdent.id u))
  · rw [if_pos hp]; exact h
  · rw [if_neg hp]; simpa using Or.inl h

/-- The broker operation `add_name` preserves every identifier already present. -/
theorem mem_ident_add_name (kb : KeyBroker) (a : List Nat) (i : KeyIdent)
    (h : i ∈ kb.entries.map KbEntry.ident) :
    i ∈ (key_broker_add_name kb a).entries.map KbEntry.ident := by
  unfold key_broker_add_name
  by_cases hp : kb.entries.any (fun e => decide (e.ident = KeyIdent.name a))
  · rw [if_pos hp]; exact h
  · rw [if_neg hp]; simpa using Or.inl h

/-- After `add_id`, the UUID identifier is present in the broker. -/
theorem add_id_self_mem (kb : KeyBroker) (u : List Nat) :
    KeyIdent.id u ∈ (key_broker_add_id kb u).entries.map KbEntry.ident := by
  unfold key_broker_add_id
  by_cases hp : kb.entries.any (fun e => decide (e.ident = KeyIdent.id u))
  · rw [if_pos hp]
    obtain ⟨e, he, hd⟩ := List.any_eq_true.mp hp
    exact List.mem_map.mpr ⟨e, he, of_decide_eq_true hd⟩
  · rw [if_neg hp]; simp

/-- After `add_name`, the alternate-name identifier is present in the broker. -/
theorem add_name_self_mem (kb : KeyBroker) (a : List Nat) :
    KeyIdent.name a ∈ (key_broker_add_name kb a).entries.map KbEntry.ident := by
  unfold key_broker_add_name
  by_cases hp : kb.entries.any (fun e => decide (e.ident = KeyIdent.name a))
  · rw [if_pos hp]
    obtain ⟨e, he, hd⟩ := List.any_eq_true.mp hp
    exact List.mem_map.mpr ⟨e, he, of_decide_eq_true hd⟩
  · rw [if_neg hp]; simp

/-- A successful `_collect_key_from_marking` adds the marking's identifier and keeps
every identifier already present. -/
theorem collect_key_mem (kb kb2 : KeyBroker) (p : List Nat) (m : Marking)
    (hp : marking_parse_unowned p = Except.ok m)
    (h : collect_key_from_marking kb p = Except.ok kb2) :
    markingIdent m ∈ kb2.entries.map KbEntry.ident ∧
    ∀ i, i ∈ kb.entries.map KbEntry.ident → i ∈ kb2.entries.map KbEntry.ident := by
  simp only [collect_key_from_marking, hp] at h
  unfold markingIdent
  by_cases ha : m.has_alt_name = true
  · rw [if_pos ha] at h ⊢
    cases h
    exact ⟨add_name_self_mem kb m.key_alt_name,
           fun i hi => mem_ident_add_name kb m.key_alt_name i hi⟩
  · rw [if_neg ha] at h ⊢
    cases h
    exact ⟨add_id_self_mem kb m.key_id,
           fun i hi => mem_ident_add_id kb m.key_id i hi⟩

/-- A successful traversal fold keeps existing identifiers and records the
identifier of every marking-matching payload it visited. -/
theorem collect_payloads_mem (ps : List (List Nat)) :
    ∀ kb kb2 : KeyBroker, collect_keys_from_payloads kb ps = Except.ok kb2 →
      (∀ i, i ∈ kb.entries.map KbEntry.ident → i ∈ kb2.entries.map KbEntry.ident) ∧
      (∀ p q m, p ∈ ps → marking_match_payload p = some q →
        marking_parse_unowned q = Except.ok m →
        markingIdent m ∈ kb2.entries.map KbEntry.ident) := by
  induction ps with
  | nil =>
    intro kb kb2 h
    unfold collect_keys_from_payloads at h
    cases h
    exact ⟨fun i hi => hi, fun p q m hp => absurd hp (List.not_mem_nil p)⟩
  | cons hd tl ih =>
    intro kb kb2 h
    simp only [collect_keys_from_payloads] at h
    split at h
    · rename_i hm
      obtain ⟨hmono, hrec⟩ := ih kb kb2 h
      refine ⟨hmono, ?_⟩
      intro p q m hp hq hparse
      rcases List.mem_cons.mp hp with rfl | hp2
      · rw [hm] at hq; exact Option.noConfusion hq
      · exact hrec p q m hp2 hq hparse
    · rename_i q0 hm
      revert h
      cases hc : collect_key_from_marking kb q0 with
      | error e => intro h; exact Except.noConfusion h
      | ok kbmid =>
        intro h
        obtain ⟨hmono, hrec⟩ := ih kbmid kb2 h
        have hparse0 : ∃ m0, marking_parse_unowned q0 = Except.ok m0 := by
          revert hc
          unfold collect_key_from_marking
          cases marking_parse_unowned q0 with
          | error e => intro hc; exact Except.noConfusion hc
          | ok m0 => intro hc; exact ⟨m0, rfl⟩
        constructor
        · intro i hi
          obtain ⟨m0, hm0⟩ := hparse0
          exact hmono i ((collect_key_mem kb kbmid q0 m0 hm0 hc).2 i hi)
        · intro p q m hp hq hparse
          rcases List.mem_cons.mp hp with rfl | hp2
          · rw [hm] at hq
            cases hq
            exact hmono _ (collect_key_mem kb kbmid q0 m hparse hc).1
          · exact hrec p q m hp2 hq hparse

/-- Any subtype-6 binary at the top level of a document appears among the
document's traversal payloads. -/
theorem mem_elems_payloads (d : List (String × BsonValue)) (n : String) (p : List Nat)
    (h : (n, BsonValue.binary 6 p) ∈ d) : p ∈ elems_payloads d := by
  induction d with
  | nil => cases h
  | cons hd tl ih =>
    obtain ⟨n0, v0⟩ := hd
    rcases List.mem_cons.mp h with heq | hm
    · injection heq with h1 h2
      rw [h2.symm]
      simp [elems_payloads, value_payloads]
    · simp only [elems_payloads]
      exact List.mem_append_right _ (ih hm)

/-- C6: a marking-query reply with `schemaRequiresEncryption` false (or, past that,
`hasEncryptedPlaceholders` false) feeds as a no-op success leaving the context
untouched; otherwise a reply without `result` fails with the malformed-input
no-result error and ERROR state, and a reply whose `result` is a document has it
stored as the marked command while its marking-matching values contribute their
parsed key identifiers to the key broker. -/
theorem feed_markings_spec (ectx : EncryptCtx) (reply : List (String × BsonValue)) :
    (∀ v, bson_find reply "schemaRequiresEncryption" = some v →
       bson_iter_as_bool v = false → mongo_feed_markings ectx reply = (ectx, true)) ∧
    ((∀ v, bson_find reply "schemaRequiresEncryption" = some v →
        bson_iter_as_bool v = true) →
      (∀ v, bson_find reply "hasEncryptedPlaceholders" = some v →
         bson_iter_as_bool v = false → mongo_feed_markings ectx reply = (ectx, true)) ∧
      ((∀ v, bson_find reply "hasEncryptedPlaceholders" = some v →
          bson_iter_as_bool v = true) →
        (bson_find reply "result" = none →
          mongo_feed_markings ectx reply
            = (ectx_fail_w_msg ectx "malformed marking, no \x27result\x27", false) ∧
          (mongo_feed_markings ectx reply).1.state = CtxState.ERROR ∧
          error_category "malformed marking, no \x27result\x27"
            = ErrorCategory.malformed_input) ∧
        (∀ d kb2, bson_find reply "result" = some (BsonValue.doc d) →
          collect_keys_from_payloads ectx.kb (elems_payloads d) = Except.ok kb2 →
          (mongo_feed_markings ectx reply).2 = true ∧
          (mongo_feed_markings ectx reply).1.marked_cmd = some d ∧
          (mongo_feed_markings ectx reply).1.kb = kb2 ∧
          (∀ n p q m, (n, BsonValue.binary 6 p) ∈ d →
            marking_match_payload p = some q →
            marking_parse_unowned q = Except.ok m →
            markingIdent m ∈ kb2.entries.map KbEntry.ident)))) := by
  constructor
  · intro v hv hb
    simp only [mongo_feed_markings, hv]
    rw [if_pos hb]
  · intro h1
    have hred1 : mongo_feed_markings ectx reply = mongo_feed_markings_tail ectx reply := by
      cases hbf : bson_find reply "schemaRequiresEncryption" with
      | none => simp only [mongo_feed_markings, hbf]
      | some v =>
        simp only [mongo_feed_markings, hbf]
        rw [if_neg (by rw [h1 v hbf]; decide)]
    constructor
    · intro v hv hb
      rw [hred1]
      simp only [mongo_feed_markings_tail, hv]
      rw [if_pos hb]
    · intro h2
      have hred2 : mongo_feed_markings ectx reply = mongo_feed_markings_result ectx reply := by
        rw [hred1]
        cases hbf : bson_find reply "hasEncryptedPlaceholders" with
        | none => simp only [mongo_feed_markings_tail, hbf]
        | some v =>
          simp only [mongo_feed_markings_tail, hbf]
          rw [if_neg (by rw [h2 v hbf]; decide)]
      constructor
      · intro hres
        rw [hred2]
        have heqf : mongo_feed_markings_result ectx reply
            = (ectx_fail_w_msg ectx "malformed marking, no \x27result\x27", false) := by
          simp only [mongo_feed_markings_result, hres]
        rw [heqf]
        exact ⟨rfl, rfl, by decide⟩
      · intro d kb2 hres hcol
        rw [hred2]
        have heq : mongo_feed_markings_result ectx reply
            = ({ ectx with marked_cmd := some d, kb := kb2 }, true) := by
          simp only [mongo_feed_markings_result, hres, hcol]
        rw [heq]
        obtain ⟨_, hrec⟩ := collect_payloads_mem (elems_payloads d) ectx.kb kb2 hcol
        exact ⟨rfl, rfl, rfl,
          fun n p q m hmem hq hparse =>
            hrec p q m (mem_elems_payloads d n p hmem) hq hparse⟩

/-- The marking-query reply of the C6 scenario: both announcement fields true and a
`result` document holding one marking-matching subtype-6 value. -/
def replyC6 : List (String × BsonValue) :=
  [("schemaRequiresEncryption", BsonValue.boolv true),
   ("hasEncryptedPlaceholders", BsonValue.boolv true),
   ("result", BsonValue.doc [("x", BsonValue.binary 6 (0 :: 0 :: List.replicate 16 5))])]

/-- Witness for C6: feeding the reply stores the `result` document and the marking's
key UUID lands in the broker. -/
theorem feed_markings_spec_witness :
    (mongo_feed_markings baseCtx replyC6).2 = true ∧
    (mongo_feed_markings baseCtx replyC6).1.marked_cmd
      = some [("x", BsonValue.binary 6 (0 :: 0 :: List.replicate 16 5))] ∧
    KeyIdent.id (List.replicate 16 5)
      ∈ ((mongo_feed_markings baseCtx replyC6).1.kb.entries.map KbEntry.ident) := by
  have g1 : ∀ v, bson_find replyC6 "schemaRequiresEncryption" = some v →
      bson_iter_as_bool v = true := by
    intro v hv
    have h2 : some (BsonValue.boolv true) = some v := hv
    cases h2
    rfl
  have g2 : ∀ v, bson_find replyC6 "hasEncryptedPlaceholders" = some v →
      bson_iter_as_bool v = true := by
    intro v hv
    have h2 : some (BsonValue.boolv true) = some v := hv
    cases h2
    rfl
  have th := (((feed_markings_spec baseCtx replyC6).2 g1).2 g2).2
      [("x", BsonValue.binary 6 (0 :: 0 :: List.replicate 16 5))]
      { entries := [{ ident := KeyIdent.id (List.replicate 16 5)
                    , status := KbEntryStatus.added, material := [], owner := 0 }] }
      rfl rfl
  refine ⟨th.1, th.2.1, ?_⟩
  rw [th.2.2.1]
  exact th.2.2.2 "x" (0 :: 0 :: List.replicate 16 5) (0 :: List.replicate 16 5)
    { has_alt_name := false, key_alt_name := [], key_id := List.replicate 16 5 }
    (List.mem_singleton.mpr rfl) rfl rfl

/-- C7: automatic-encrypt init fails — returning false with the context in ERROR and
a client-misuse status — whenever the namespace is absent or lacks a "." separator,
or any of the AWS master-key options, `key_id`, `algorithm` or `iv` is set. -/
theorem encrypt_init_rejects_misuse (ectx : EncryptCtx) (cache : Cache) (ns : Option String)
    (hinit : ectx.initialized = false)
    (h : ns = none ∨ (∃ s, ns = some s ∧ s.contains '.' = false) ∨
         ectx.opts.masterkey_aws_region.isSome = true ∨
         ectx.opts.masterkey_aws_cmk.isSome = true ∨
         ectx.opts.key_id ≠ [] ∨ ectx.opts.algorithm ≠ 0 ∨ ectx.opts.iv ≠ []) :
    (mongocrypt_ctx_encrypt_init ectx cache ns).2.2 = false ∧
    (mongocrypt_ctx_encrypt_init ectx cache ns).1.state = CtxState.ERROR ∧
    ∃ m, (mongocrypt_ctx_encrypt_init ectx cache ns).1.status = some m ∧
      error_category m = ErrorCategory.client_misuse := by
  cases ns with
  | none =>
    have he : mongocrypt_ctx_encrypt_init ectx cache none
        = (ectx_fail_w_msg { ectx with initialized := true, explicit := false }
             "invalid ns. Must be <db>.<coll>", cache, false) := by
      simp [mongocrypt_ctx_encrypt_init, hinit]
    rw [he]
    exact ⟨rfl, rfl, "invalid ns. Must be <db>.<coll>", rfl, by decide⟩
  | some s =>
    by_cases hc : s.contains '.' = false
    · have he : mongocrypt_ctx_encrypt_init ectx cache (some s)
          = (ectx_fail_w_msg { ectx with initialized := true, explicit := false }
               "invalid ns. Must be <db>.<coll>", cache, false) := by
        simp [mongocrypt_ctx_encrypt_init, hinit, hc]
      rw [he]
      exact ⟨rfl, rfl, "invalid ns. Must be <db>.<coll>", rfl, by decide⟩
    · have hc2 : s.contains '.' = true := by
        cases hcc : s.contains '.'
        · exact absurd hcc hc
        · rfl
      by_cases haws : ectx.opts.masterkey_aws_region.isSome = true ∨
          ectx.opts.masterkey_aws_cmk.isSome = true
      · have he : mongocrypt_ctx_encrypt_init ectx cache (some s)
            = (ectx_fail_w_msg { ectx with initialized := true, explicit := false }
                 "aws masterkey options must not be set", cache, false) := by
          simp [mongocrypt_ctx_encrypt_init, hinit, hc2, haws]
        rw [he]
        exact ⟨rfl, rfl, "aws masterkey options must not be set", rfl, by decide⟩
      · by_cases hkey : ectx.opts.key_id ≠ []
        · have he : mongocrypt_ctx_encrypt_init ectx cache (some s)
              = (ectx_fail_w_msg { ectx with initialized := true, explicit := false }
                   "key_id must not be set for auto encryption", cache, false) := by
            simp [mongocrypt_ctx_encrypt_init, hinit, hc2, haws, hkey]
          rw [he]
          exact ⟨rfl, rfl, "key_id must not be set for auto encryption", rfl, by decide⟩
        · by_cases halg : ectx.opts.algorithm ≠ 0
          · have he : mongocrypt_ctx_encrypt_init ectx cache (some s)
                = (ectx_fail_w_msg { ectx with initialized := true, explicit := false }
                     "algorithm must not be set for auto encryption", cache, false) := by
              simp [mongocrypt_ctx_encrypt_init, hinit, hc2, haws, hkey, halg]
            rw [he]
            exact ⟨rfl, rfl, "algorithm must not be set for auto encryption", rfl, by decide⟩
          · by_cases hiv : ectx.opts.iv ≠ []
            · have he : mongocrypt_ctx_encrypt_init ectx cache (some s)
                  = (ectx_fail_w_msg { ectx with initialized := true, explicit := false }
                       "iv must not be set for auto encryption", cache, false) := by
                simp [mongocrypt_ctx_encrypt_init, hinit, hc2, haws, hkey, halg, hiv]
              rw [he]
              exact ⟨rfl, rfl, "iv must not be set for auto encryption", rfl, by decide⟩
            · exfalso
              rcases h with h0 | ⟨s2, hs2, hcs⟩ | hr | hcm | hk | ha | hv
              · exact Option.noConfusion h0
              · injection hs2 with he
                rw [← he] at hcs
                exact hc hcs
              · exact haws (Or.inl hr)
              · exact haws (Or.inr hcm)
              · exact hkey hk
              · exact halg ha
              · exact hiv hv

/-- Witness for C7 at a missing namespace on the baseline context. -/
theorem encrypt_init_rejects_misuse_witness :
    (mongocrypt_ctx_encrypt_init baseCtx [] none).2.2 = false ∧
    (mongocrypt_ctx_encrypt_init baseCtx [] none).1.state = CtxState.ERROR := by
  have h := encrypt_init_rejects_misuse baseCtx [] none rfl (Or.inl rfl)
  exact ⟨h.1, h.2.1⟩

/-- When `_set_schema_from_collinfo` reports failure the context it returns is in
ERROR. -/
theorem set_schema_fail_state (a : EncryptCtx) (c : List (String × BsonValue)) :
    (set_schema_from_collinfo a c).2 = false →
    (set_schema_from_collinfo a c).1.state = CtxState.ERROR := by
  unfold set_schema_from_collinfo
  by_cases hv : collinfo_is_view c = true
  · rw [if_pos hv]
    intro _
    rfl
  · rw [if_neg hv]
    cases hfj : find_jsonschema c with
    | none =>
      intro hcon
      simp at hcon
    | some v =>
      cases v with
      | utf8 s => intro _; rfl
      | boolv b => intro _; rfl
      | binary st p => intro _; rfl
      | doc d =>
        intro hcon
        simp at hcon
      | other t p => intro _; rfl

/-- The WAITING encrypt context of the C8 scenario: waiting on another context's
collinfo fetch (owner id 2) which has since aborted, removing the cache entry. -/
def ectxC8 : EncryptCtx :=
  { baseCtx with
    state := CtxState.WAITING,
    waiting_for_collinfo := true,
    collinfo_owner := 2 }

/-- C8 (counterexample): driving `wait_done` on a WAITING context whose collinfo
cache entry has vanished moves it back to NEED_MONGO_COLLINFO — a strictly backward
step in the claim's order that is not a transition into ERROR. -/
theorem waiting_backward_to_collinfo_counterex :
    ectxC8.state = CtxState.WAITING ∧
    (wait_done_encrypt ectxC8 []).1.state = CtxState.NEED_MONGO_COLLINFO ∧
    stateRank (wait_done_encrypt ectxC8 []).1.state < stateRank ectxC8.state ∧
    (wait_done_encrypt ectxC8 []).1.state ≠ CtxState.ERROR :=
  ⟨rfl, rfl, by decide, by decide⟩

/-- C8 (amended): `wait_done` on a context waiting for collinfo lands in WAITING,
NEED_MONGO_MARKINGS or ERROR — all forward or error moves — except that it re-enters
NEED_MONGO_COLLINFO exactly when the context finds itself owner of the (re-created
or still pending) cache entry for its namespace, the re-entry the cancellation
protocol prescribes after an owner aborts. -/
theorem wait_done_collinfo_reentry (ectx : EncryptCtx) (cache : Cache)
    (h : ectx.waiting_for_collinfo = true) :
    (wait_done_encrypt ectx cache).1.state = CtxState.WAITING ∨
    (wait_done_encrypt ectx cache).1.state = CtxState.NEED_MONGO_MARKINGS ∨
    (wait_done_encrypt ectx cache).1.state = CtxState.ERROR ∨
    ((wait_done_encrypt ectx cache).1.state = CtxState.NEED_MONGO_COLLINFO ∧
      (cache_lookup cache ectx.ns = none ∨
       ∃ e, cache_lookup cache ectx.ns = some e ∧ e.cstate = CachePairState.pending ∧
         e.owner = ectx.id)) := by
  have hw : wait_done_encrypt ectx cache = try_collinfo_from_cache ectx cache := by
    unfold wait_done_encrypt
    rw [if_pos h]
  rw [hw]
  cases hl : cache_lookup cache ectx.ns with
  | none =>
    have he : try_collinfo_from_cache ectx cache
        = ({ ectx with
             collinfo_owner := ectx.id,
             collinfo_state := CachePairState.pending,
             waiting_for_collinfo := false,
             state := CtxState.NEED_MONGO_COLLINFO }, cache_set cache ectx.ns
               { cstate := CachePairState.pending, owner := ectx.id, value := [] }, true) := by
      simp [try_collinfo_from_cache, cache_get_or_create, hl]
    rw [he]
    exact Or.inr (Or.inr (Or.inr ⟨rfl, Or.inl rfl⟩))
  | some e =>
    by_cases hd : e.cstate = CachePairState.done
    · rcases hs : set_schema_from_collinfo
          { ectx with
            collinfo_owner := e.owner,
            collinfo_state := CachePairState.done,
            waiting_for_collinfo := false } e.value with ⟨e3, ok⟩
      cases ok with
      | false =>
        have he : try_collinfo_from_cache ectx cache = (e3, cache, false) := by
          simp [try_collinfo_from_cache, cache_get_or_create, hl, hd, hs]
        rw [he]
        have herr : e3.state = CtxState.ERROR := by
          have h2 := set_schema_fail_state
            { ectx with
              collinfo_owner := e.owner,
              collinfo_state := CachePairState.done,
              waiting_for_collinfo := false } e.value (by rw [hs])
          rw [hs] at h2
          exact h2
        exact Or.inr (Or.inr (Or.inl herr))
      | true =>
        have he : try_collinfo_from_cache ectx cache
            = ({ e3 with state := CtxState.NEED_MONGO_MARKINGS }, cache, true) := by
          simp [try_collinfo_from_cache, cache_get_or_create, hl, hd, hs]
        rw [he]
        exact Or.inr (Or.inl rfl)
    · have hpend : e.cstate = CachePairState.pending := by
        cases hcs : e.cstate
        · rfl
        · exact absurd hcs hd
      by_cases ho : e.owner = ectx.id
      · have he : try_collinfo_from_cache ectx cache
            = ({ ectx with
                 collinfo_owner := e.owner,
                 collinfo_state := e.cstate,
                 waiting_for_collinfo := false,
                 state := CtxState.NEED_MONGO_COLLINFO }, cache, true) := by
          simp [try_collinfo_from_cache, cache_get_or_create, hl, hd, ho]
        rw [he]
        exact Or.inr (Or.inr (Or.inr ⟨rfl, Or.inr ⟨e, rfl, hpend, ho⟩⟩))
      · have he : try_collinfo_from_cache ectx cache
            = ({ ectx with
                 collinfo_owner := e.owner,
                 collinfo_state := e.cstate,
                 waiting_for_collinfo := true,
                 state := CtxState.WAITING }, cache, true) := by
          simp [try_collinfo_from_cache, cache_get_or_create, hl, hd, ho]
        rw [he]
        exact Or.inl rfl

/-- Witness for C8's amended statement at the concrete aborted-owner scenario. -/
theorem wait_done_collinfo_reentry_witness :
    (wait_done_encrypt ectxC8 []).1.state = CtxState.WAITING ∨
    (wait_done_encrypt ectxC8 []).1.state = CtxState.NEED_MONGO_MARKINGS ∨
    (wait_done_encrypt ectxC8 []).1.state = CtxState.ERROR ∨
    ((wait_done_encrypt ectxC8 []).1.state = CtxState.NEED_MONGO_COLLINFO ∧
      (cache_lookup [] ectxC8.ns = none ∨
       ∃ e, cache_lookup [] ectxC8.ns = some e ∧ e.cstate = CachePairState.pending ∧
         e.owner = ectxC8.id)) :=
  wait_done_collinfo_reentry ectxC8 [] rfl

/-- C10: `next_dependent_ctx_id` on a context waiting for collinfo returns the
stored collinfo owner and zeroes it, so an immediately repeated call returns 0; when
the context is not waiting for collinfo the call delegates to the key broker's
`next_ctx_id` and leaves the context unchanged. -/
theorem next_dependent_ctx_id_spec (ectx : EncryptCtx) :
    (ectx.waiting_for_collinfo = true →
      (next_dependent_ctx_id ectx).1 = ectx.collinfo_owner ∧
      ((next_dependent_ctx_id ectx).2).collinfo_owner = 0 ∧
      (next_dependent_ctx_id ((next_dependent_ctx_id ectx).2)).1 = 0) ∧
    (ectx.waiting_for_collinfo = false →
      (next_dependent_ctx_id ectx).1 = key_broker_next_ctx_id ectx.kb ∧
      (next_dependent_ctx_id ectx).2 = ectx) := by
  constructor
  · intro hw
    unfold next_dependent_ctx_id
    rw [if_pos hw]
    refine ⟨rfl, rfl, ?_⟩
    rw [if_pos (show ({ ectx with collinfo_owner := 0 } : EncryptCtx).waiting_for_collinfo
          = true from hw)]
  · intro hw
    unfold next_dependent_ctx_id
    rw [if_neg (by rw [hw]; decide)]
    exact ⟨rfl, rfl⟩

/-- Witness for C10: the waiting context with stored owner 2 yields 2 then 0; the
non-waiting baseline delegates to the broker. -/
theorem next_dependent_ctx_id_spec_witness :
    (next_dependent_ctx_id ectxC8).1 = 2 ∧
    (next_dependent_ctx_id ((next_dependent_ctx_id ectxC8).2)).1 = 0 ∧
    (next_dependent_ctx_id baseCtx).1 = key_broker_next_ctx_id baseCtx.kb := by
  have h1 := (next_dependent_ctx_id_spec ectxC8).1 rfl
  have h2 := (next_dependent_ctx_id_spec baseCtx).2 rfl
  exact ⟨h1.1, h1.2.2, h2.1⟩
